import Mathlib

/-
  Verification of the `orderstracker` Go package (order lifecycle tracker for
  a market-making strategy).

  Shallow embedding conventions:
  * Go `uint64` values are modelled as `Nat`; wherever the Go code performs
    arithmetic that can wrap (the VWAP computation in `OrderFilled`), the
    wrap is made explicit with `% U64MOD`.  Go's unsigned integer division
    truncates, which matches `Nat` division; Go's division by zero is a
    runtime panic and is modelled by the explicit `StepResult.crash` outcome.
  * Go `int`-backed enumerations (`OrderStatus`, `ExecutionReportKind`,
    `ExchangeID`) are modelled as `Int` with the same named constants, so
    that "unrecognized values" exist exactly as in Go.
  * Go maps are modelled as association lists with first-match lookup and
    replace-or-extend insertion (`lookupA` / `upsertA`); the tracker only
    ever inserts fresh order keys, so list length coincides with map size.
  * `time.Time` is modelled as an opaque `Nat` timestamp; only assignment of
    timestamps is performed by the code.
  * The Go `*orderContext` back-reference stored inside `marketData` is
    modelled as the order's client-ID key (a non-owning relational
    reference); the Go code only ever writes this pointer, never reads it,
    so this is observationally faithful.
  * Each mutating method of `Tracker` mutates in place and returns `error`
    in Go; here it returns a `StepResult`: `ok` (nil error) or `err`
    carrying the error class and the possibly-mutated state, or `crash`
    for a runtime panic.
-/

namespace OrdersTracker

/-- 2^64, the modulus of Go `uint64` arithmetic. -/
def U64MOD : Nat := 2 ^ 64

/-- Go: `type OrderStatus int` (order.go). -/
abbrev OrderStatus := Int

/-- Go: `OrderUnplaced OrderStatus = iota` (order.go). Named `Order*` in Go;
namespaced here to avoid clashing with the `Tracker` methods of the same name. -/
def OrderStatus.Unplaced : OrderStatus := 0

/-- Go: `OrderPlacing` status constant (order.go). -/
def OrderStatus.Placing : OrderStatus := 1

/-- Go: `OrderPlaced` status constant (order.go). -/
def OrderStatus.Placed : OrderStatus := 2

/-- Go: `OrderModifying` status constant (order.go). -/
def OrderStatus.Modifying : OrderStatus := 3

/-- Go: `OrderCanceling` status constant (order.go). -/
def OrderStatus.Canceling : OrderStatus := 4

/-- Go: `OrderFilled` status constant (order.go). -/
def OrderStatus.Filled : OrderStatus := 5

/-- Go: `func (o OrderStatus) String() string` (order.go): a switch over the
six defined constants with default "Unknown". -/
def OrderStatusString (o : OrderStatus) : String :=
  if o = OrderStatus.Unplaced then "Unplaced"
  else if o = OrderStatus.Placing then "Placing"
  else if o = OrderStatus.Placed then "Placed"
  else if o = OrderStatus.Modifying then "Modifying"
  else if o = OrderStatus.Canceling then "Canceling"
  else if o = OrderStatus.Filled then "Filled"
  else "Unknown"

/-- Go: `type OrderClientID string` (order.go). -/
abbrev OrderClientID := String

/-- Go: `type ExchangeID int` (order.go). -/
abbrev ExchangeID := Int

/-- Go: `type SymbolID string` (order.go). -/
abbrev SymbolID := String

/-- Go: `type ExecutionReportKind int` (executionreport.go). -/
abbrev ExecutionReportKind := Int

/-- Go: `ReportNone ExecutionReportKind = iota` (executionreport.go). -/
def ReportNone : ExecutionReportKind := 0

/-- Go: `ReportPlaced` (executionreport.go). -/
def ReportPlaced : ExecutionReportKind := 1

/-- Go: `ReportModified` (executionreport.go). -/
def ReportModified : ExecutionReportKind := 2

/-- Go: `ReportCanceled` (executionreport.go). -/
def ReportCanceled : ExecutionReportKind := 3

/-- Go: `ReportFilled` (executionreport.go). -/
def ReportFilled : ExecutionReportKind := 4

/-- Go: `ReportRejected` (executionreport.go). -/
def ReportRejected : ExecutionReportKind := 5

/-- Modelled from the spec: the source defines the `ExecutionReportKind`
constants (executionreport.go) but no `String` method for them; the spec
requires the report-kind enumeration to map to the stable names
`None, Placed, Modified, Canceled, Filled, Rejected` via a pure switch with
fallback "Unknown", in parallel with `OrderStatus.String`. -/
def ExecutionReportKindString (k : ExecutionReportKind) : String :=
  if k = ReportNone then "None"
  else if k = ReportPlaced then "Placed"
  else if k = ReportModified then "Modified"
  else if k = ReportCanceled then "Canceled"
  else if k = ReportFilled then "Filled"
  else if k = ReportRejected then "Rejected"
  else "Unknown"

/-- Go: `type Order struct` (order.go). Amount and Price are uint64. -/
structure Order where
  ClientID : OrderClientID
  Exchange : ExchangeID
  Symbol : SymbolID
  Amount : Nat
  Price : Nat
deriving Repr, DecidableEq

/-- Go: `type ExecutionReport struct` (executionreport.go). -/
structure ExecutionReport where
  Kind : ExecutionReportKind
  Time : Nat
  Message : String
  Amount : Nat
  Price : Nat
deriving Repr, DecidableEq

/-- The Go zero value `ExecutionReport{}`. -/
def ExecutionReport.zero : ExecutionReport :=
  { Kind := ReportNone, Time := 0, Message := "", Amount := 0, Price := 0 }

/-- Go: `type orderContext struct` (tracker.go). -/
structure OrderContext where
  Status : OrderStatus
  Order : Order
  LastReport : ExecutionReport
deriving Repr, DecidableEq

/-- Go: `type marketData struct` (tracker.go). The `orderContext *orderContext`
pointer is modelled as the client-ID key of the referenced order (a non-owning
reference into the order index); the code only ever writes this field. -/
structure MarketData where
  bid : Nat
  ask : Nat
  orderContext : Option OrderClientID
deriving Repr, DecidableEq

/-- The Go zero value `marketData{}` returned by a map read on a missing key. -/
def MarketData.zero : MarketData := { bid := 0, ask := 0, orderContext := none }

/-- First-match lookup in an association list (Go map read: present → value). -/
def lookupA {α β : Type} [DecidableEq α] : List (α × β) → α → Option β
  | [], _ => none
  | (k, v) :: rest, key => if key = k then some v else lookupA rest key

/-- Replace-or-extend insertion in an association list (Go map write). -/
def upsertA {α β : Type} [DecidableEq α] : List (α × β) → α → β → List (α × β)
  | [], key, v => [(key, v)]
  | (k, w) :: rest, key, v =>
      if key = k then (key, v) :: rest else (k, w) :: upsertA rest key v

/-- Go: `type Tracker struct` (tracker.go). The mutex only serializes calls
and has no observable effect on the sequential semantics embedded here. -/
structure Tracker where
  exchanges : List (ExchangeID × List (SymbolID × MarketData))
  orders : List (OrderClientID × OrderContext)
deriving Repr, DecidableEq

/-- Go: `NewTracker()` (tracker.go): empty maps. -/
def NewTracker : Tracker := { exchanges := [], orders := [] }

/-- The error taxonomy of the package (spec §7); the Go code returns
`fmt.Errorf` values whose messages distinguish exactly these three classes. -/
inductive TrackerError where
  | duplicateOrder
  | orderNotFound
  | invalidTransition
deriving Repr, DecidableEq

/-- Outcome of one mutating tracker call: `ok`/`err` carry the state after
the call (Go mutates in place, also on error paths); `crash` is a Go runtime
panic (uint64 division by zero), which never returns. -/
inductive StepResult where
  | ok (t : Tracker)
  | err (e : TrackerError) (t : Tracker)
  | crash
deriving Repr, DecidableEq

/-- The state reached by a step, if the step returned at all. -/
def StepResult.state : StepResult → Option Tracker
  | .ok t => some t
  | .err _ t => some t
  | .crash => none

/-- Go: `func (t *Tracker) OrderPlacing(order Order) error` (tracker.go):
duplicate check, fresh context with status OrderPlacing and zero report,
then lazy creation of the exchange map and overwrite of the symbol's
order-context back-reference. -/
def Tracker.OrderPlacing (t : Tracker) (order : Order) : StepResult :=
  match lookupA t.orders order.ClientID with
  | some _ => .err .duplicateOrder t
  | none =>
    let ctx : OrderContext :=
      { Status := OrderStatus.Placing, Order := order,
        LastReport := ExecutionReport.zero }
    let orders := upsertA t.orders order.ClientID ctx
    let exchange := (lookupA t.exchanges order.Exchange).getD []
    let symbolContext := (lookupA exchange order.Symbol).getD MarketData.zero
    let symbolContext := { symbolContext with orderContext := some order.ClientID }
    let exchange := upsertA exchange order.Symbol symbolContext
    .ok { exchanges := upsertA t.exchanges order.Exchange exchange,
          orders := orders }

/-- Go: `OrderPlaceConfirmed(clid, time)` (tracker.go): the report is set to
kind ReportPlaced with the given time before the status precondition is
checked; on status ≠ OrderPlacing an error is returned with the report
already updated. -/
def Tracker.OrderPlaceConfirmed (t : Tracker) (clid : OrderClientID)
    (time : Nat) : StepResult :=
  match lookupA t.orders clid with
  | none => .err .orderNotFound t
  | some ctx =>
    let ctx := { ctx with
      LastReport := { ctx.LastReport with Kind := ReportPlaced, Time := time } }
    if ctx.Status ≠ OrderStatus.Placing then
      .err .invalidTransition { t with orders := upsertA t.orders clid ctx }
    else
      let ctx := { ctx with Status := OrderStatus.Placed }
      .ok { t with orders := upsertA t.orders clid ctx }

/-- Go: `OrderRejected(clid, time, reason)` (tracker.go): report set to
ReportRejected with time and message first; then Placing → Unplaced,
Modifying/Canceling → Placed, otherwise error with status unchanged. -/
def Tracker.OrderRejected (t : Tracker) (clid : OrderClientID)
    (time : Nat) (reason : String) : StepResult :=
  match lookupA t.orders clid with
  | none => .err .orderNotFound t
  | some ctx =>
    let ctx := { ctx with
      LastReport := { ctx.LastReport with
        Kind := ReportRejected, Time := time, Message := reason } }
    if ctx.Status = OrderStatus.Placing then
      let ctx := { ctx with Status := OrderStatus.Unplaced }
      .ok { t with orders := upsertA t.orders clid ctx }
    else if ctx.Status = OrderStatus.Modifying ∨
            ctx.Status = OrderStatus.Canceling then
      let ctx := { ctx with Status := OrderStatus.Placed }
      .ok { t with orders := upsertA t.orders clid ctx }
    else
      .err .invalidTransition { t with orders := upsertA t.orders clid ctx }

/-- Go: `OrderMoving(clid)` (tracker.go): status must be OrderPlaced; on
success status becomes OrderModifying and the report kind is cleared to
ReportNone; error paths mutate nothing. -/
def Tracker.OrderMoving (t : Tracker) (clid : OrderClientID) : StepResult :=
  match lookupA t.orders clid with
  | none => .err .orderNotFound t
  | some ctx =>
    if ctx.Status ≠ OrderStatus.Placed then
      .err .invalidTransition t
    else
      let ctx := { ctx with Status := OrderStatus.Modifying,
                            LastReport := { ctx.LastReport with Kind := ReportNone } }
      .ok { t with orders := upsertA t.orders clid ctx }

/-- Go: `OrderMoveConfirmed(clid, time, price)` (tracker.go): report set to
ReportModified with time and price before the status check; on status =
OrderModifying the status becomes OrderPlaced and `Order.Price` is updated,
otherwise error with the report already updated and `Order.Price` untouched. -/
def Tracker.OrderMoveConfirmed (t : Tracker) (clid : OrderClientID)
    (time : Nat) (price : Nat) : StepResult :=
  match lookupA t.orders clid with
  | none => .err .orderNotFound t
  | some ctx =>
    let ctx := { ctx with
      LastReport := { ctx.LastReport with
        Kind := ReportModified, Time := time, Price := price } }
    if ctx.Status ≠ OrderStatus.Modifying then
      .err .invalidTransition { t with orders := upsertA t.orders clid ctx }
    else
      let ctx := { ctx with Status := OrderStatus.Placed,
                            Order := { ctx.Order with Price := price } }
      .ok { t with orders := upsertA t.orders clid ctx }

/-- Go: `OrderCancelling(clid)` (tracker.go): status must be OrderPlaced; on
success status becomes OrderCanceling and the report kind is cleared to
ReportNone; error paths mutate nothing. -/
def Tracker.OrderCancelling (t : Tracker) (clid : OrderClientID) : StepResult :=
  match lookupA t.orders clid with
  | none => .err .orderNotFound t
  | some ctx =>
    if ctx.Status ≠ OrderStatus.Placed then
      .err .invalidTransition t
    else
      let ctx := { ctx with Status := OrderStatus.Canceling,
                            LastReport := { ctx.LastReport with Kind := ReportNone } }
      .ok { t with orders := upsertA t.orders clid ctx }

/-- Go: `OrderCancelConfirmed(clid, time)` (tracker.go): report set to
ReportCanceled with time before the status check; on status = OrderCanceling
the status becomes OrderUnplaced, otherwise error with report updated. -/
def Tracker.OrderCancelConfirmed (t : Tracker) (clid : OrderClientID)
    (time : Nat) : StepResult :=
  match lookupA t.orders clid with
  | none => .err .orderNotFound t
  | some ctx =>
    let ctx := { ctx with
      LastReport := { ctx.LastReport with Kind := ReportCanceled, Time := time } }
    if ctx.Status ≠ OrderStatus.Canceling then
      .err .invalidTransition { t with orders := upsertA t.orders clid ctx }
    else
      let ctx := { ctx with Status := OrderStatus.Unplaced }
      .ok { t with orders := upsertA t.orders clid ctx }

/-- Go: `OrderFilled(clid, time, executedAmount, avgPrice)` (tracker.go):
status unconditionally overwritten to OrderFilled and the report time set;
if the previous report kind is ReportFilled the fill is aggregated with the
running VWAP in wrapping uint64 arithmetic (a zero denominator is a Go
runtime panic), otherwise the amount and price are taken from this fill. -/
def Tracker.OrderFilled (t : Tracker) (clid : OrderClientID) (time : Nat)
    (executedAmount : Nat) (avgPrice : Nat) : StepResult :=
  match lookupA t.orders clid with
  | none => .err .orderNotFound t
  | some ctx =>
    let ctx := { ctx with Status := OrderStatus.Filled,
                          LastReport := { ctx.LastReport with Time := time } }
    if ctx.LastReport.Kind = ReportFilled then
      let denom := (ctx.LastReport.Amount + executedAmount) % U64MOD
      if denom = 0 then .crash
      else
        let vwap := ((ctx.LastReport.Amount * ctx.LastReport.Price) % U64MOD
                      + (executedAmount * avgPrice) % U64MOD) % U64MOD / denom
        let ctx := { ctx with LastReport :=
          { ctx.LastReport with Price := vwap, Amount := denom } }
        .ok { t with orders := upsertA t.orders clid ctx }
    else
      let ctx := { ctx with LastReport :=
        { ctx.LastReport with Kind := ReportFilled,
                              Amount := executedAmount, Price := avgPrice } }
      .ok { t with orders := upsertA t.orders clid ctx }

/-- Go: `GetOrderStatus(clid, order, executionReport)` (tracker.go): returns
copies of the order and last report with the current status, or a not-found
error. -/
def Tracker.GetOrderStatus (t : Tracker) (clid : OrderClientID) :
    Except TrackerError (OrderStatus × Order × ExecutionReport) :=
  match lookupA t.orders clid with
  | none => .error .orderNotFound
  | some ctx => .ok (ctx.Status, ctx.Order, ctx.LastReport)

/-- Go: `PushQuote(exchangeID, symbolID, bid, ask)` (tracker.go): lazily
creates the per-venue map and per-symbol entry, then overwrites bid and ask
(the entry's order-context back-reference is read and written back intact). -/
def Tracker.PushQuote (t : Tracker) (exchangeID : ExchangeID)
    (symbolID : SymbolID) (bid ask : Nat) : Tracker :=
  let exchange := (lookupA t.exchanges exchangeID).getD []
  let symbolContext := (lookupA exchange symbolID).getD MarketData.zero
  let symbolContext := { symbolContext with bid := bid, ask := ask }
  { t with exchanges :=
      upsertA t.exchanges exchangeID (upsertA exchange symbolID symbolContext) }

/-- Go: `GetOrdersCount()` (tracker.go): `len(t.orders)`. The tracker only
ever inserts fresh keys into `orders`, so list length equals Go map size. -/
def Tracker.GetOrdersCount (t : Tracker) : Nat := t.orders.length

/-- A concrete sample order used by witnesses and counterexamples. -/
def sampleOrder : Order :=
  { ClientID := "a", Exchange := 1, Symbol := "S", Amount := 7, Price := 3 }

/-- A concrete one-order tracker whose order "a" has the given status and a
zero execution report, used by witnesses and counterexamples. -/
def sampleTracker (st : OrderStatus) : Tracker :=
  { exchanges := [],
    orders := [("a", { Status := st, Order := sampleOrder,
                       LastReport := ExecutionReport.zero })] }

/-- A concrete one-order tracker whose order "a" is in status Filled with a
ReportFilled report carrying the given cumulative amount and price. -/
def filledTracker (amount price : Nat) : Tracker :=
  { exchanges := [(1, [("S", { bid := 0, ask := 0, orderContext := some "a" })])],
    orders := [("a", { Status := OrderStatus.Filled, Order := sampleOrder,
                       LastReport := { Kind := ReportFilled, Time := 1,
                                       Message := "", Amount := amount,
                                       Price := price } })] }

/-- Derived observation: the market-data entry stored for a venue/instrument
pair (reading through both levels of the nested map), if any. -/
def Tracker.quoteAt (t : Tracker) (eid : ExchangeID) (sid : SymbolID) :
    Option MarketData :=
  match lookupA t.exchanges eid with
  | none => none
  | some ex => lookupA ex sid

/-- One call of any mutating tracker operation, for quantifying over
operation sequences. -/
inductive Op where
  | place (order : Order)
  | placeConfirmed (clid : OrderClientID) (time : Nat)
  | rejected (clid : OrderClientID) (time : Nat) (reason : String)
  | moving (clid : OrderClientID)
  | moveConfirmed (clid : OrderClientID) (time : Nat) (price : Nat)
  | cancelling (clid : OrderClientID)
  | cancelConfirmed (clid : OrderClientID) (time : Nat)
  | filled (clid : OrderClientID) (time : Nat) (executedAmount : Nat) (avgPrice : Nat)
  | pushQuote (exchangeID : ExchangeID) (symbolID : SymbolID) (bid ask : Nat)
deriving Repr, DecidableEq

/-- Dispatch of one operation to the corresponding tracker method. -/
def Tracker.step (t : Tracker) : Op → StepResult
  | .place o => t.OrderPlacing o
  | .placeConfirmed clid time => t.OrderPlaceConfirmed clid time
  | .rejected clid time reason => t.OrderRejected clid time reason
  | .moving clid => t.OrderMoving clid
  | .moveConfirmed clid time price => t.OrderMoveConfirmed clid time price
  | .cancelling clid => t.OrderCancelling clid
  | .cancelConfirmed clid time => t.OrderCancelConfirmed clid time
  | .filled clid time e p => t.OrderFilled clid time e p
  | .pushQuote eid sid bid ask => .ok (t.PushQuote eid sid bid ask)

/-- Run a list of operations from a state; `none` when some call panicked
(the Go process would have crashed there). Error returns continue with the
state the failed call left behind, as the Go caller would. -/
def runOps (t : Tracker) : List Op → Option Tracker
  | [] => some t
  | op :: rest =>
    match (t.step op).state with
    | none => none
    | some t' => runOps t' rest

/-! ### Association-list lemmas (the Go map semantics) -/

theorem lookupA_upsertA_self {α β : Type} [DecidableEq α]
    (l : List (α × β)) (k : α) (v : β) :
    lookupA (upsertA l k v) k = some v := by
  induction l with
  | nil => simp [upsertA, lookupA]
  | cons hd tl ih =>
    obtain ⟨a, b⟩ := hd
    by_cases hk : k = a
    · subst hk; simp [upsertA, lookupA]
    · simp [upsertA, lookupA, hk, ih]

theorem lookupA_upsertA_ne {α β : Type} [DecidableEq α]
    (l : List (α × β)) (k k' : α) (v : β) (h : k' ≠ k) :
    lookupA (upsertA l k v) k' = lookupA l k' := by
  induction l with
  | nil => simp [upsertA, lookupA, h]
  | cons hd tl ih =>
    obtain ⟨a, b⟩ := hd
    by_cases hk : k = a
    · subst hk; simp [upsertA, lookupA, h]
    · by_cases hk' : k' = a <;> simp [upsertA, lookupA, hk, hk', ih]

theorem length_upsertA_of_none {α β : Type} [DecidableEq α]
    (l : List (α × β)) (k : α) (v : β) (h : lookupA l k = none) :
    (upsertA l k v).length = l.length + 1 := by
  induction l with
  | nil => simp [upsertA]
  | cons hd tl ih =>
    obtain ⟨a, b⟩ := hd
    by_cases hk : k = a
    · simp [lookupA, hk] at h
    · simp only [lookupA, if_neg hk] at h
      simp [upsertA, hk, ih h]

theorem lookup_after_upsert {α β : Type} [DecidableEq α]
    (l : List (α × β)) (c k : α) (v w : β)
    (h : lookupA (upsertA l c v) k = some w) :
    (k = c ∧ w = v) ∨ (k ≠ c ∧ lookupA l k = some w) := by
  by_cases hc : k = c
  · subst hc
    rw [lookupA_upsertA_self] at h
    exact Or.inl ⟨rfl, (Option.some.inj h).symm⟩
  · exact Or.inr ⟨hc, by rwa [lookupA_upsertA_ne _ _ _ _ hc] at h⟩

/-! ### Claim theorems -/

/-- C9: the order-status and report-kind enumerations each map, via a pure
total function, every defined value to its stable human-readable name
(Unplaced, Placing, Placed, Modifying, Canceling, Filled for statuses;
None, Placed, Modified, Canceled, Filled, Rejected for report kinds), every
unrecognized value maps to "Unknown", and distinct defined values map to
distinct names. -/
theorem enum_string_roundtrip :
    (OrderStatusString OrderStatus.Unplaced = "Unplaced" ∧
     OrderStatusString OrderStatus.Placing = "Placing" ∧
     OrderStatusString OrderStatus.Placed = "Placed" ∧
     OrderStatusString OrderStatus.Modifying = "Modifying" ∧
     OrderStatusString OrderStatus.Canceling = "Canceling" ∧
     OrderStatusString OrderStatus.Filled = "Filled") ∧
    (ExecutionReportKindString ReportNone = "None" ∧
     ExecutionReportKindString ReportPlaced = "Placed" ∧
     ExecutionReportKindString ReportModified = "Modified" ∧
     ExecutionReportKindString ReportCanceled = "Canceled" ∧
     ExecutionReportKindString ReportFilled = "Filled" ∧
     ExecutionReportKindString ReportRejected = "Rejected") ∧
    (∀ v : OrderStatus, v ∉ ([0, 1, 2, 3, 4, 5] : List Int) →
      OrderStatusString v = "Unknown") ∧
    (∀ k : ExecutionReportKind, k ∉ ([0, 1, 2, 3, 4, 5] : List Int) →
      ExecutionReportKindString k = "Unknown") ∧
    (∀ v w : OrderStatus, v ∈ ([0, 1, 2, 3, 4, 5] : List Int) →
      w ∈ ([0, 1, 2, 3, 4, 5] : List Int) →
      OrderStatusString v = OrderStatusString w → v = w) ∧
    (∀ v w : ExecutionReportKind, v ∈ ([0, 1, 2, 3, 4, 5] : List Int) →
      w ∈ ([0, 1, 2, 3, 4, 5] : List Int) →
      ExecutionReportKindString v = ExecutionReportKindString w → v = w) := by
  refine ⟨by decide, by decide, ?_, ?_,
    by intro v w hv hw; fin_cases hv <;> fin_cases hw <;> decide,
    by intro v w hv hw; fin_cases hv <;> fin_cases hw <;> decide⟩
  · intro v hv
    simp only [List.mem_cons, List.not_mem_nil, or_false, not_or] at hv
    obtain ⟨h0, h1, h2, h3, h4, h5⟩ := hv
    simp [OrderStatusString, OrderStatus.Unplaced, OrderStatus.Placing,
      OrderStatus.Placed, OrderStatus.Modifying, OrderStatus.Canceling,
      OrderStatus.Filled, h0, h1, h2, h3, h4, h5]
  · intro k hk
    simp only [List.mem_cons, List.not_mem_nil, or_false, not_or] at hk
    obtain ⟨h0, h1, h2, h3, h4, h5⟩ := hk
    simp [ExecutionReportKindString, ReportNone, ReportPlaced, ReportModified,
      ReportCanceled, ReportFilled, ReportRejected, h0, h1, h2, h3, h4, h5]

/-- C9 witness: the fallback branch at the concrete unrecognized value 42. -/
theorem enum_string_roundtrip_witness :
    OrderStatusString 42 = "Unknown" ∧ ExecutionReportKindString 42 = "Unknown" :=
  ⟨enum_string_roundtrip.2.2.1 42 (by decide),
   enum_string_roundtrip.2.2.2.1 42 (by decide)⟩

/-- C7: Place with an identifier not present in the order index succeeds,
increases GetOrdersCount by exactly one, and leaves the new order with
status Placing; Place with an identifier already present fails with a
DuplicateOrder error and leaves the whole state (hence GetOrdersCount)
unchanged. -/
theorem orderPlacing_count_spec (t : Tracker) (o : Order) :
    (lookupA t.orders o.ClientID = none →
      ∃ t', t.OrderPlacing o = .ok t' ∧
        t'.GetOrdersCount = t.GetOrdersCount + 1 ∧
        ∃ ctx, lookupA t'.orders o.ClientID = some ctx ∧
          ctx.Status = OrderStatus.Placing) ∧
    (∀ ctx, lookupA t.orders o.ClientID = some ctx →
      t.OrderPlacing o = .err .duplicateOrder t) := by
  constructor
  · intro h
    simp only [Tracker.OrderPlacing, h]
    refine ⟨_, rfl, ?_, ?_⟩
    · simpa [Tracker.GetOrdersCount] using length_upsertA_of_none t.orders _ _ h
    · exact ⟨_, lookupA_upsertA_self t.orders _ _, rfl⟩
  · intro ctx h
    simp [Tracker.OrderPlacing, h]

/-- C7 witness: placing order "a" into the empty tracker succeeds with count
1 and status Placing; placing it again fails with DuplicateOrder leaving the
state unchanged. -/
theorem orderPlacing_count_spec_witness :
    (∃ t', NewTracker.OrderPlacing
        { ClientID := "a", Exchange := 1, Symbol := "S", Amount := 7, Price := 3 } = .ok t' ∧
      t'.GetOrdersCount = NewTracker.GetOrdersCount + 1 ∧
      ∃ ctx, lookupA t'.orders "a" = some ctx ∧ ctx.Status = OrderStatus.Placing) := by
  have := (orderPlacing_count_spec NewTracker
    { ClientID := "a", Exchange := 1, Symbol := "S", Amount := 7, Price := 3 }).1 (by rfl)
  exact this

/-- C10: OrderMoving, OrderCancelling and OrderPlacing are atomic on error:
whenever any of them returns an error, the returned state is exactly the
input state (no report, timestamp or amount is touched). -/
theorem moveStart_cancelStart_place_atomic_on_error (t : Tracker) :
    (∀ clid e t', t.OrderMoving clid = .err e t' → t' = t) ∧
    (∀ clid e t', t.OrderCancelling clid = .err e t' → t' = t) ∧
    (∀ o e t', t.OrderPlacing o = .err e t' → t' = t) := by
  refine ⟨?_, ?_, ?_⟩
  · intro clid e t' h
    cases hL : lookupA t.orders clid with
    | none => simp [Tracker.OrderMoving, hL] at h; exact h.2.symm
    | some ctx =>
      simp only [Tracker.OrderMoving, hL] at h
      by_cases hs : ctx.Status = OrderStatus.Placed <;> simp [hs] at h
      exact h.2.symm
  · intro clid e t' h
    cases hL : lookupA t.orders clid with
    | none => simp [Tracker.OrderCancelling, hL] at h; exact h.2.symm
    | some ctx =>
      simp only [Tracker.OrderCancelling, hL] at h
      by_cases hs : ctx.Status = OrderStatus.Placed <;> simp [hs] at h
      exact h.2.symm
  · intro o e t' h
    cases hL : lookupA t.orders o.ClientID with
    | none => simp [Tracker.OrderPlacing, hL] at h
    | some ctx => simp [Tracker.OrderPlacing, hL] at h; exact h.2.symm

/-- C10 witness: OrderMoving on the empty tracker errors and returns the
empty tracker unchanged. -/
theorem moveStart_cancelStart_place_atomic_on_error_witness :
    ∃ t', NewTracker.OrderMoving "a" = .err .orderNotFound t' ∧ t' = NewTracker :=
  ⟨NewTracker, rfl,
    (moveStart_cancelStart_place_atomic_on_error NewTracker).1 "a" .orderNotFound
      NewTracker rfl⟩

/-- C4: on a tracked order whose status is not Placing, OrderPlaceConfirmed
returns an InvalidTransition error yet records report kind Placed with the
given timestamp, leaving the status (and all other fields) unchanged; when
the status is Placing it succeeds, sets status Placed and records report
kind Placed. -/
theorem orderPlaceConfirmed_spec (t : Tracker) (clid : OrderClientID)
    (time : Nat) (ctx : OrderContext) (h : lookupA t.orders clid = some ctx) :
    (ctx.Status ≠ OrderStatus.Placing →
      ∃ t', t.OrderPlaceConfirmed clid time = .err .invalidTransition t' ∧
        lookupA t'.orders clid =
          some { ctx with LastReport :=
            { ctx.LastReport with Kind := ReportPlaced, Time := time } }) ∧
    (ctx.Status = OrderStatus.Placing →
      ∃ t', t.OrderPlaceConfirmed clid time = .ok t' ∧
        lookupA t'.orders clid =
          some { ctx with Status := OrderStatus.Placed,
                          LastReport :=
            { ctx.LastReport with Kind := ReportPlaced, Time := time } }) := by
  constructor
  · intro hs
    simp only [Tracker.OrderPlaceConfirmed, h, hs, ne_eq, not_false_iff, if_true]
    exact ⟨_, rfl, lookupA_upsertA_self t.orders _ _⟩
  · intro hs
    simp only [Tracker.OrderPlaceConfirmed, h, hs, ne_eq, not_true, if_false]
    exact ⟨_, rfl, lookupA_upsertA_self t.orders _ _⟩

/-- C4 witness: confirming a just-placed order (status Placing) succeeds,
and confirming it a second time (status Placed) errors yet rewrites the
report. -/
theorem orderPlaceConfirmed_spec_witness :
    (∃ t', (sampleTracker OrderStatus.Placing).OrderPlaceConfirmed "a" 11 = .ok t' ∧
      lookupA t'.orders "a" =
        some { Status := OrderStatus.Placed, Order := sampleOrder,
               LastReport := { Kind := ReportPlaced, Time := 11, Message := "",
                               Amount := 0, Price := 0 } }) ∧
    (∃ t', (sampleTracker OrderStatus.Placed).OrderPlaceConfirmed "a" 12 =
          .err .invalidTransition t' ∧
      lookupA t'.orders "a" =
        some { Status := OrderStatus.Placed, Order := sampleOrder,
               LastReport := { Kind := ReportPlaced, Time := 12, Message := "",
                               Amount := 0, Price := 0 } }) :=
  ⟨(orderPlaceConfirmed_spec (sampleTracker OrderStatus.Placing) "a" 11
      { Status := OrderStatus.Placing, Order := sampleOrder,
        LastReport := ExecutionReport.zero } rfl).2 rfl,
   (orderPlaceConfirmed_spec (sampleTracker OrderStatus.Placed) "a" 12
      { Status := OrderStatus.Placed, Order := sampleOrder,
        LastReport := ExecutionReport.zero } rfl).1 (by decide)⟩

/-- C5: OrderRejected on a tracked order always records report kind Rejected
with the given timestamp and reason; status Placing becomes Unplaced
(success), status Modifying or Canceling becomes Placed (success), and any
other status is left unchanged with an InvalidTransition error while the
Rejected report is still recorded. -/
theorem orderRejected_spec (t : Tracker) (clid : OrderClientID) (time : Nat)
    (reason : String) (ctx : OrderContext)
    (h : lookupA t.orders clid = some ctx) :
    (ctx.Status = OrderStatus.Placing →
      ∃ t', t.OrderRejected clid time reason = .ok t' ∧
        lookupA t'.orders clid =
          some { ctx with Status := OrderStatus.Unplaced,
                          LastReport := { ctx.LastReport with
                            Kind := ReportRejected, Time := time,
                            Message := reason } }) ∧
    (ctx.Status = OrderStatus.Modifying ∨ ctx.Status = OrderStatus.Canceling →
      ∃ t', t.OrderRejected clid time reason = .ok t' ∧
        lookupA t'.orders clid =
          some { ctx with Status := OrderStatus.Placed,
                          LastReport := { ctx.LastReport with
                            Kind := ReportRejected, Time := time,
                            Message := reason } }) ∧
    (ctx.Status ≠ OrderStatus.Placing →
     ctx.Status ≠ OrderStatus.Modifying → ctx.Status ≠ OrderStatus.Canceling →
      ∃ t', t.OrderRejected clid time reason = .err .invalidTransition t' ∧
        lookupA t'.orders clid =
          some { ctx with LastReport := { ctx.LastReport with
                            Kind := ReportRejected, Time := time,
                            Message := reason } }) := by
  refine ⟨?_, ?_, ?_⟩
  · intro hs
    simp only [Tracker.OrderRejected, h, hs, if_true]
    exact ⟨_, rfl, lookupA_upsertA_self t.orders _ _⟩
  · intro hs
    have hnp : ctx.Status ≠ OrderStatus.Placing := by
      rcases hs with hs | hs <;> rw [hs] <;> decide
    simp only [Tracker.OrderRejected, h, hnp, if_false, hs, if_true]
    exact ⟨_, rfl, lookupA_upsertA_self t.orders _ _⟩
  · intro h1 h2 h3
    have hor : ¬(ctx.Status = OrderStatus.Modifying ∨
                 ctx.Status = OrderStatus.Canceling) := by
      rintro (hs | hs) <;> [exact h2 hs; exact h3 hs]
    simp only [Tracker.OrderRejected, h, h1, hor, if_false]
    exact ⟨_, rfl, lookupA_upsertA_self t.orders _ _⟩

/-- C5 witness: rejecting an order in status Modifying reverts it to Placed
with the Rejected report recorded. -/
theorem orderRejected_spec_witness :
    ∃ t', (sampleTracker OrderStatus.Modifying).OrderRejected "a" 9 "nope" = .ok t' ∧
      lookupA t'.orders "a" =
        some { Status := OrderStatus.Placed, Order := sampleOrder,
               LastReport := { Kind := ReportRejected, Time := 9,
                               Message := "nope", Amount := 0, Price := 0 } } :=
  (orderRejected_spec (sampleTracker OrderStatus.Modifying) "a" 9 "nope"
    { Status := OrderStatus.Modifying, Order := sampleOrder,
      LastReport := ExecutionReport.zero } rfl).2.1 (Or.inl rfl)

/-- C8: PushQuote creates the per-venue map and per-instrument entry if
absent and overwrites that entry's bid and ask with the given values (no
bid ≤ ask validation: the statement holds for all bid, ask), preserving the
entry's order back-reference; every other (venue, instrument) entry and the
whole order index are unchanged. -/
theorem pushQuote_spec (t : Tracker) (eid : ExchangeID) (sid : SymbolID)
    (bid ask : Nat) :
    (t.PushQuote eid sid bid ask).quoteAt eid sid =
      some { bid := bid, ask := ask,
             orderContext :=
               ((t.quoteAt eid sid).getD MarketData.zero).orderContext } ∧
    (∀ e s, e ≠ eid ∨ s ≠ sid →
      (t.PushQuote eid sid bid ask).quoteAt e s = t.quoteAt e s) ∧
    (t.PushQuote eid sid bid ask).orders = t.orders := by
  refine ⟨?_, ?_, rfl⟩
  · cases hE : lookupA t.exchanges eid with
    | none =>
      simp [Tracker.PushQuote, Tracker.quoteAt, hE, lookupA_upsertA_self,
        lookupA, MarketData.zero]
    | some ex =>
      cases hS : lookupA ex sid with
      | none =>
        simp [Tracker.PushQuote, Tracker.quoteAt, hE, hS,
          lookupA_upsertA_self, MarketData.zero]
      | some m =>
        simp [Tracker.PushQuote, Tracker.quoteAt, hE, hS, lookupA_upsertA_self]
  · intro e s hne
    by_cases he : e = eid
    · subst he
      rcases hne with hne | hne
      · exact absurd rfl hne
      · cases hE : lookupA t.exchanges e with
        | none =>
          simp [Tracker.PushQuote, Tracker.quoteAt, hE, lookupA_upsertA_self,
            lookupA_upsertA_ne _ _ _ _ hne, lookupA, hne]
        | some ex =>
          simp [Tracker.PushQuote, Tracker.quoteAt, hE, lookupA_upsertA_self,
            lookupA_upsertA_ne _ _ _ _ hne, hne]
    · simp [Tracker.PushQuote, Tracker.quoteAt,
        lookupA_upsertA_ne _ _ _ _ he]

/-- C8 witness: pushing a quote onto the empty tracker creates the entry
(10, 12) at venue 1, instrument "S", leaves a distinct instrument's entry
absent as before, and leaves the order index unchanged. -/
theorem pushQuote_spec_witness :
    (NewTracker.PushQuote 1 "S" 10 12).quoteAt 1 "S" =
      some { bid := 10, ask := 12, orderContext := none } ∧
    (NewTracker.PushQuote 1 "S" 10 12).quoteAt 1 "T" = NewTracker.quoteAt 1 "T" ∧
    (NewTracker.PushQuote 1 "S" 10 12).orders = NewTracker.orders :=
  ⟨(pushQuote_spec NewTracker 1 "S" 10 12).1,
   (pushQuote_spec NewTracker 1 "S" 10 12).2.1 1 "T" (Or.inr (by decide)),
   (pushQuote_spec NewTracker 1 "S" 10 12).2.2⟩

/-- C1: OrderFilled aggregates fills as specified: on a tracked order whose
previous report kind is not Filled, the cumulative amount becomes the
executed amount and the price the given average price; when the previous
kind is Filled and the uint64 arithmetic does not wrap (numerator and
denominator below 2^64, denominator positive), the new price is
(prevAmount*prevPrice + execAmount*execPrice) / (prevAmount + execAmount)
with truncating division and the new amount is prevAmount + execAmount; in
both cases the report kind is Filled and the status Filled. -/
theorem orderFilled_vwap_spec (t : Tracker) (clid : OrderClientID)
    (time executedAmount avgPrice : Nat) (ctx : OrderContext)
    (h : lookupA t.orders clid = some ctx) :
    (ctx.LastReport.Kind ≠ ReportFilled →
      ∃ t', t.OrderFilled clid time executedAmount avgPrice = .ok t' ∧
        lookupA t'.orders clid =
          some { ctx with
                 Status := OrderStatus.Filled,
                 LastReport := { ctx.LastReport with
                                 Kind := ReportFilled,
                                 Time := time,
                                 Amount := executedAmount,
                                 Price := avgPrice } }) ∧
    (ctx.LastReport.Kind = ReportFilled →
     0 < ctx.LastReport.Amount + executedAmount →
     ctx.LastReport.Amount + executedAmount < U64MOD →
     ctx.LastReport.Amount * ctx.LastReport.Price
       + executedAmount * avgPrice < U64MOD →
      ∃ t', t.OrderFilled clid time executedAmount avgPrice = .ok t' ∧
        lookupA t'.orders clid =
          some { ctx with
                 Status := OrderStatus.Filled,
                 LastReport := { ctx.LastReport with
                                 Time := time,
                                 Amount := ctx.LastReport.Amount + executedAmount,
                                 Price :=
                                   (ctx.LastReport.Amount * ctx.LastReport.Price +
                                     executedAmount * avgPrice) /
                                     (ctx.LastReport.Amount + executedAmount) } }) := by
  constructor
  · intro hk
    simp only [Tracker.OrderFilled, h, hk, if_false]
    exact ⟨_, rfl, lookupA_upsertA_self t.orders _ _⟩
  · intro hk h1 h2 h3
    have hA : ctx.LastReport.Amount * ctx.LastReport.Price < U64MOD :=
      lt_of_le_of_lt (Nat.le_add_right _ _) h3
    have hB : executedAmount * avgPrice < U64MOD :=
      lt_of_le_of_lt (Nat.le_add_left _ _) h3
    have hd : (ctx.LastReport.Amount + executedAmount) % U64MOD =
        ctx.LastReport.Amount + executedAmount := Nat.mod_eq_of_lt h2
    have h1' : ctx.LastReport.Amount + executedAmount ≠ 0 := Nat.pos_iff_ne_zero.mp h1
    simp only [Tracker.OrderFilled, h, hk, if_true, hd, h1', if_false,
      Nat.mod_eq_of_lt hA, Nat.mod_eq_of_lt hB, Nat.mod_eq_of_lt h3]
    exact ⟨_, rfl, lookupA_upsertA_self t.orders _ _⟩

/-- C1 witness: from the empty tracker, place order "a", fill 100 at price
10 (reaching exactly `filledTracker 100 10`), then the second fill of 300 at
price 20 — by the theorem — yields amount 400, price 17, report kind Filled,
status Filled. -/
theorem orderFilled_vwap_spec_witness :
    runOps NewTracker
      [.place sampleOrder, .filled "a" 1 100 10] = some (filledTracker 100 10) ∧
    (∃ t', (filledTracker 100 10).OrderFilled "a" 2 300 20 = .ok t' ∧
      lookupA t'.orders "a" =
        some { Status := OrderStatus.Filled, Order := sampleOrder,
               LastReport := { Kind := ReportFilled, Time := 2, Message := "",
                               Amount := 400, Price := 17 } }) := by
  constructor
  · rfl
  · have hthm := orderFilled_vwap_spec (filledTracker 100 10) "a" 2 300 20
      { Status := OrderStatus.Filled, Order := sampleOrder,
        LastReport := { Kind := ReportFilled, Time := 1, Message := "",
                        Amount := 100, Price := 10 } } rfl
    have := hthm.2 rfl (by decide) (by decide) (by decide)
    simpa using this

/-- C3 counterexample: at a tracked (known) identifier the claim "OrderFilled
succeeds / errors iff the identifier is unknown, for all inputs including
executedAmount = 0" fails: after placing order "a" and filling it with
executedAmount = 0, a second fill with executedAmount = 0 divides by zero in
the VWAP and the call panics instead of succeeding — while the identifier is
still tracked at that point. -/
theorem orderFilled_zero_denominator_crash :
    runOps NewTracker
      [.place sampleOrder, .filled "a" 1 0 5, .filled "a" 2 0 7] = none ∧
    (runOps NewTracker [.place sampleOrder, .filled "a" 1 0 5]).map
      (fun t => (lookupA t.orders "a").isSome) = some true := ⟨rfl, rfl⟩

/-- C3 amended: OrderFilled on an unknown identifier errors with
OrderNotFound and touches nothing; on a tracked order it succeeds with no
precondition on the current status and overwrites the status to Filled —
for all inputs including executedAmount = 0 — except that when the previous
report kind is Filled and (previous amount + executed amount) mod 2^64 = 0,
the VWAP division by zero panics instead of returning. -/
theorem orderFilled_errors_iff_unknown_amended (t : Tracker)
    (clid : OrderClientID) (time executedAmount avgPrice : Nat) :
    (lookupA t.orders clid = none →
      t.OrderFilled clid time executedAmount avgPrice = .err .orderNotFound t) ∧
    (∀ ctx, lookupA t.orders clid = some ctx →
      (ctx.LastReport.Kind = ReportFilled →
        (ctx.LastReport.Amount + executedAmount) % U64MOD ≠ 0) →
      ∃ t', t.OrderFilled clid time executedAmount avgPrice = .ok t' ∧
        ∃ ctx', lookupA t'.orders clid = some ctx' ∧
          ctx'.Status = OrderStatus.Filled) ∧
    (∀ ctx, lookupA t.orders clid = some ctx →
      ctx.LastReport.Kind = ReportFilled →
      (ctx.LastReport.Amount + executedAmount) % U64MOD = 0 →
      t.OrderFilled clid time executedAmount avgPrice = .crash) := by
  refine ⟨?_, ?_, ?_⟩
  · intro h
    simp [Tracker.OrderFilled, h]
  · intro ctx h hnz
    by_cases hk : ctx.LastReport.Kind = ReportFilled
    · simp only [Tracker.OrderFilled, h, hk, if_true, hnz hk, if_false]
      exact ⟨_, rfl, _, lookupA_upsertA_self t.orders _ _, rfl⟩
    · simp only [Tracker.OrderFilled, h, hk, if_false]
      exact ⟨_, rfl, _, lookupA_upsertA_self t.orders _ _, rfl⟩
  · intro ctx h hk hz
    simp [Tracker.OrderFilled, h, hk, hz]

/-- C3 amended witness: filling the untracked "b" errors with OrderNotFound;
filling the tracked "a" with executedAmount = 0 on a non-Filled report
succeeds and sets status Filled; a fill summing to a zero denominator on a
Filled report crashes. -/
theorem orderFilled_errors_iff_unknown_amended_witness :
    ((sampleTracker OrderStatus.Placing).OrderFilled "b" 1 10 10 =
      .err .orderNotFound (sampleTracker OrderStatus.Placing)) ∧
    (∃ t', (sampleTracker OrderStatus.Placing).OrderFilled "a" 1 0 9 = .ok t' ∧
      ∃ ctx', lookupA t'.orders "a" = some ctx' ∧
        ctx'.Status = OrderStatus.Filled) ∧
    ((filledTracker 0 5).OrderFilled "a" 2 0 7 = .crash) :=
  ⟨(orderFilled_errors_iff_unknown_amended
      (sampleTracker OrderStatus.Placing) "b" 1 10 10).1 rfl,
   (orderFilled_errors_iff_unknown_amended
      (sampleTracker OrderStatus.Placing) "a" 1 0 9).2.1
      { Status := OrderStatus.Placing, Order := sampleOrder,
        LastReport := ExecutionReport.zero } rfl (by decide),
   (orderFilled_errors_iff_unknown_amended
      (filledTracker 0 5) "a" 2 0 7).2.2
      { Status := OrderStatus.Filled, Order := sampleOrder,
        LastReport := { Kind := ReportFilled, Time := 1, Message := "",
                        Amount := 0, Price := 5 } } rfl rfl (by decide)⟩

/-- C6: Order.Price is mutable only via a confirmed price move: on a tracked
order, OrderMoveConfirmed with status Modifying sets status Placed, sets
Order.Price to the new price and records report kind Modified with the new
price; with any other status it records the report (kind Modified, time,
price) and errors, leaving Order.Price unchanged; and across every single
tracker operation the stored Order of a tracked identifier is unchanged
except by exactly that successful OrderMoveConfirmed, which changes only its
Price field. -/
theorem order_price_mutation_spec (t : Tracker) (clid : OrderClientID)
    (ctx : OrderContext) (h : lookupA t.orders clid = some ctx) :
    (∀ time price, ctx.Status = OrderStatus.Modifying →
      ∃ t', t.OrderMoveConfirmed clid time price = .ok t' ∧
        lookupA t'.orders clid =
          some { ctx with
                 Status := OrderStatus.Placed,
                 Order := { ctx.Order with Price := price },
                 LastReport := { ctx.LastReport with
                                 Kind := ReportModified,
                                 Time := time,
                                 Price := price } }) ∧
    (∀ time price, ctx.Status ≠ OrderStatus.Modifying →
      ∃ t', t.OrderMoveConfirmed clid time price = .err .invalidTransition t' ∧
        lookupA t'.orders clid =
          some { ctx with
                 LastReport := { ctx.LastReport with
                                 Kind := ReportModified,
                                 Time := time,
                                 Price := price } }) ∧
    (∀ op t' ctx', (t.step op).state = some t' →
      lookupA t'.orders clid = some ctx' →
      ctx'.Order = ctx.Order ∨
        ∃ time price, op = .moveConfirmed clid time price ∧
          ctx.Status = OrderStatus.Modifying ∧
          ctx'.Order = { ctx.Order with Price := price }) := by
  refine ⟨?_, ?_, ?_⟩
  · intro time price hs
    simp only [Tracker.OrderMoveConfirmed, h, hs, ne_eq, not_true, if_false,
      reduceIte]
    exact ⟨_, rfl, lookupA_upsertA_self t.orders _ _⟩
  · intro time price hs
    simp only [Tracker.OrderMoveConfirmed, h, hs, ne_eq, not_false_iff, if_true,
      reduceIte]
    exact ⟨_, rfl, lookupA_upsertA_self t.orders _ _⟩
  · intro op t' ctx' hstep hl'
    cases op with
    | place o =>
      cases hL : lookupA t.orders o.ClientID with
      | some c =>
        simp only [Tracker.step, Tracker.OrderPlacing, hL, StepResult.state,
          Option.some.injEq] at hstep
        subst hstep
        rw [h] at hl'
        injection hl' with e
        subst e
        exact Or.inl rfl
      | none =>
        simp only [Tracker.step, Tracker.OrderPlacing, hL, StepResult.state,
          Option.some.injEq] at hstep
        subst hstep
        dsimp only at hl'
        rcases lookup_after_upsert _ _ _ _ _ hl' with ⟨rfl, rfl⟩ | ⟨-, hl2⟩
        · rw [h] at hL
          cases hL
        · rw [h] at hl2
          injection hl2 with e
          subst e
          exact Or.inl rfl
    | placeConfirmed c time =>
      cases hL : lookupA t.orders c with
      | none =>
        simp only [Tracker.step, Tracker.OrderPlaceConfirmed, hL,
          StepResult.state, Option.some.injEq] at hstep
        subst hstep
        rw [h] at hl'
        injection hl' with e
        subst e
        exact Or.inl rfl
      | some cctx =>
        simp only [Tracker.step, Tracker.OrderPlaceConfirmed, hL] at hstep
        split at hstep <;>
        · simp only [StepResult.state, Option.some.injEq] at hstep
          subst hstep
          dsimp only at hl'
          rcases lookup_after_upsert _ _ _ _ _ hl' with ⟨rfl, rfl⟩ | ⟨-, hl2⟩
          · rw [h] at hL
            injection hL with e
            subst e
            exact Or.inl rfl
          · rw [h] at hl2
            injection hl2 with e
            subst e
            exact Or.inl rfl
    | rejected c time reason =>
      cases hL : lookupA t.orders c with
      | none =>
        simp only [Tracker.step, Tracker.OrderRejected, hL,
          StepResult.state, Option.some.injEq] at hstep
        subst hstep
        rw [h] at hl'
        injection hl' with e
        subst e
        exact Or.inl rfl
      | some cctx =>
        simp only [Tracker.step, Tracker.OrderRejected, hL] at hstep
        split at hstep
        · simp only [StepResult.state, Option.some.injEq] at hstep
          subst hstep
          dsimp only at hl'
          rcases lookup_after_upsert _ _ _ _ _ hl' with ⟨rfl, rfl⟩ | ⟨-, hl2⟩
          · rw [h] at hL
            injection hL with e
            subst e
            exact Or.inl rfl
          · rw [h] at hl2
            injection hl2 with e
            subst e
            exact Or.inl rfl
        · split at hstep <;>
          · simp only [StepResult.state, Option.some.injEq] at hstep
            subst hstep
            dsimp only at hl'
            rcases lookup_after_upsert _ _ _ _ _ hl' with ⟨rfl, rfl⟩ | ⟨-, hl2⟩
            · rw [h] at hL
              injection hL with e
              subst e
              exact Or.inl rfl
            · rw [h] at hl2
              injection hl2 with e
              subst e
              exact Or.inl rfl
    | moving c =>
      cases hL : lookupA t.orders c with
      | none =>
        simp only [Tracker.step, Tracker.OrderMoving, hL,
          StepResult.state, Option.some.injEq] at hstep
        subst hstep
        rw [h] at hl'
        injection hl' with e
        subst e
        exact Or.inl rfl
      | some cctx =>
        simp only [Tracker.step, Tracker.OrderMoving, hL] at hstep
        split at hstep
        · simp only [StepResult.state, Option.some.injEq] at hstep
          subst hstep
          rw [h] at hl'
          injection hl' with e
          subst e
          exact Or.inl rfl
        · simp only [StepResult.state, Option.some.injEq] at hstep
          subst hstep
          dsimp only at hl'
          rcases lookup_after_upsert _ _ _ _ _ hl' with ⟨rfl, rfl⟩ | ⟨-, hl2⟩
          · rw [h] at hL
            injection hL with e
            subst e
            exact Or.inl rfl
          · rw [h] at hl2
            injection hl2 with e
            subst e
            exact Or.inl rfl
    | moveConfirmed c time price =>
      cases hL : lookupA t.orders c with
      | none =>
        simp only [Tracker.step, Tracker.OrderMoveConfirmed, hL,
          StepResult.state, Option.some.injEq] at hstep
        subst hstep
        rw [h] at hl'
        injection hl' with e
        subst e
        exact Or.inl rfl
      | some cctx =>
        simp only [Tracker.step, Tracker.OrderMoveConfirmed, hL] at hstep
        split at hstep
        · simp only [StepResult.state, Option.some.injEq] at hstep
          subst hstep
          dsimp only at hl'
          rcases lookup_after_upsert _ _ _ _ _ hl' with ⟨rfl, rfl⟩ | ⟨-, hl2⟩
          · rw [h] at hL
            injection hL with e
            subst e
            exact Or.inl rfl
          · rw [h] at hl2
            injection hl2 with e
            subst e
            exact Or.inl rfl
        · rename_i hcond
          simp only [StepResult.state, Option.some.injEq] at hstep
          subst hstep
          dsimp only at hl'
          rcases lookup_after_upsert _ _ _ _ _ hl' with ⟨rfl, rfl⟩ | ⟨-, hl2⟩
          · rw [h] at hL
            injection hL with e
            subst e
            right
            refine ⟨time, price, rfl, ?_, rfl⟩
            simpa using hcond
          · rw [h] at hl2
            injection hl2 with e
            subst e
            exact Or.inl rfl
    | cancelling c =>
      cases hL : lookupA t.orders c with
      | none =>
        simp only [Tracker.step, Tracker.OrderCancelling, hL,
          StepResult.state, Option.some.injEq] at hstep
        subst hstep
        rw [h] at hl'
        injection hl' with e
        subst e
        exact Or.inl rfl
      | some cctx =>
        simp only [Tracker.step, Tracker.OrderCancelling, hL] at hstep
        split at hstep
        · simp only [StepResult.state, Option.some.injEq] at hstep
          subst hstep
          rw [h] at hl'
          injection hl' with e
          subst e
          exact Or.inl rfl
        · simp only [StepResult.state, Option.some.injEq] at hstep
          subst hstep
          dsimp only at hl'
          rcases lookup_after_upsert _ _ _ _ _ hl' with ⟨rfl, rfl⟩ | ⟨-, hl2⟩
          · rw [h] at hL
            injection hL with e
            subst e
            exact Or.inl rfl
          · rw [h] at hl2
            injection hl2 with e
            subst e
            exact Or.inl rfl
    | cancelConfirmed c time =>
      cases hL : lookupA t.orders c with
      | none =>
        simp only [Tracker.step, Tracker.OrderCancelConfirmed, hL,
          StepResult.state, Option.some.injEq] at hstep
        subst hstep
        rw [h] at hl'
        injection hl' with e
        subst e
        exact Or.inl rfl
      | some cctx =>
        simp only [Tracker.step, Tracker.OrderCancelConfirmed, hL] at hstep
        split at hstep <;>
        · simp only [StepResult.state, Option.some.injEq] at hstep
          subst hstep
          dsimp only at hl'
          rcases lookup_after_upsert _ _ _ _ _ hl' with ⟨rfl, rfl⟩ | ⟨-, hl2⟩
          · rw [h] at hL
            injection hL with e
            subst e
            exact Or.inl rfl
          · rw [h] at hl2
            injection hl2 with e
            subst e
            exact Or.inl rfl
    | filled c time e p =>
      cases hL : lookupA t.orders c with
      | none =>
        simp only [Tracker.step, Tracker.OrderFilled, hL,
          StepResult.state, Option.some.injEq] at hstep
        subst hstep
        rw [h] at hl'
        injection hl' with e
        subst e
        exact Or.inl rfl
      | some cctx =>
        simp only [Tracker.step, Tracker.OrderFilled, hL] at hstep
        split at hstep
        · split at hstep
          · simp [StepResult.state] at hstep
          · simp only [StepResult.state, Option.some.injEq] at hstep
            subst hstep
            dsimp only at hl'
            rcases lookup_after_upsert _ _ _ _ _ hl' with ⟨rfl, rfl⟩ | ⟨-, hl2⟩
            · rw [h] at hL
              injection hL with e
              subst e
              exact Or.inl rfl
            · rw [h] at hl2
              injection hl2 with e
              subst e
              exact Or.inl rfl
        · simp only [StepResult.state, Option.some.injEq] at hstep
          subst hstep
          dsimp only at hl'
          rcases lookup_after_upsert _ _ _ _ _ hl' with ⟨rfl, rfl⟩ | ⟨-, hl2⟩
          · rw [h] at hL
            injection hL with e
            subst e
            exact Or.inl rfl
          · rw [h] at hl2
            injection hl2 with e
            subst e
            exact Or.inl rfl
    | pushQuote eid sid bid ask =>
      simp only [Tracker.step, Tracker.PushQuote, StepResult.state,
        Option.some.injEq] at hstep
      subst hstep
      dsimp only at hl'
      rw [h] at hl'
      injection hl' with e
      subst e
      exact Or.inl rfl

/-- C6 witness: a confirmed move at price 42 on an order in status Modifying
sets Order.Price to 42, and a move confirm on status Placed errors, records
the Modified report with price 43, and leaves Order.Price at 3. -/
theorem order_price_mutation_spec_witness :
    (∃ t', (sampleTracker OrderStatus.Modifying).OrderMoveConfirmed "a" 4 42 = .ok t' ∧
      lookupA t'.orders "a" =
        some { Status := OrderStatus.Placed,
               Order := { sampleOrder with Price := 42 },
               LastReport := { Kind := ReportModified, Time := 4, Message := "",
                               Amount := 0, Price := 42 } }) ∧
    (∃ t', (sampleTracker OrderStatus.Placed).OrderMoveConfirmed "a" 5 43 =
        .err .invalidTransition t' ∧
      lookupA t'.orders "a" =
        some { Status := OrderStatus.Placed,
               Order := sampleOrder,
               LastReport := { Kind := ReportModified, Time := 5, Message := "",
                               Amount := 0, Price := 43 } }) :=
  ⟨(order_price_mutation_spec (sampleTracker OrderStatus.Modifying) "a"
      { Status := OrderStatus.Modifying, Order := sampleOrder,
        LastReport := ExecutionReport.zero } rfl).1 4 42 rfl,
   (order_price_mutation_spec (sampleTracker OrderStatus.Placed) "a"
      { Status := OrderStatus.Placed, Order := sampleOrder,
        LastReport := ExecutionReport.zero } rfl).2.1 5 43 (by decide)⟩

/-- C2 counterexample: the claim "once a fill has been recorded the order's
ExecutionReport.Amount never decreases and is never reset by any later
operation (including intervening failed operations such as a Reject attempt
on a Filled order)" is false at a concrete input: after placing order "a"
and filling 100 at price 10 the cumulative amount is 100; a Reject attempt
on the Filled order fails but overwrites the report kind to Rejected, so the
next fill of 50 restarts aggregation and the cumulative amount drops to 50. -/
theorem amount_reset_after_failed_reject :
    (runOps NewTracker [.place sampleOrder, .filled "a" 1 100 10]).map
      (fun t => (lookupA t.orders "a").map (fun c => c.LastReport.Amount)) =
      some (some 100) ∧
    (runOps NewTracker [.place sampleOrder, .filled "a" 1 100 10,
        .rejected "a" 2 "late reject", .filled "a" 3 50 5]).map
      (fun t => (lookupA t.orders "a").map (fun c => c.LastReport.Amount)) =
      some (some 50) := ⟨rfl, rfl⟩

/-- C2 amended: across any single tracker operation that returns, a tracked
order's ExecutionReport.Amount never decreases as long as the report kind is
Filled before and after the operation (for a further fill, absent 64-bit
wrap); an operation that overwrites the report kind — such as a failed
Reject attempt on a Filled order — makes the next OrderFilled restart
aggregation, resetting the amount. -/
theorem amount_monotone_while_kind_filled (t : Tracker) (clid : OrderClientID)
    (ctx ctx' : OrderContext) (op : Op) (t' : Tracker)
    (h : lookupA t.orders clid = some ctx)
    (hstep : (t.step op).state = some t')
    (hl' : lookupA t'.orders clid = some ctx')
    (hkF : ctx.LastReport.Kind = ReportFilled)
    (hkF' : ctx'.LastReport.Kind = ReportFilled)
    (hw : ∀ time e p, op = .filled clid time e p →
      ctx.LastReport.Amount + e < U64MOD) :
    ctx.LastReport.Amount ≤ ctx'.LastReport.Amount := by
  cases op with
  | place o =>
    cases hL : lookupA t.orders o.ClientID with
    | some c =>
      simp only [Tracker.step, Tracker.OrderPlacing, hL, StepResult.state,
        Option.some.injEq] at hstep
      subst hstep
      rw [h] at hl'
      injection hl' with e
      subst e
      exact le_refl _
    | none =>
      simp only [Tracker.step, Tracker.OrderPlacing, hL, StepResult.state,
        Option.some.injEq] at hstep
      subst hstep
      dsimp only at hl'
      rcases lookup_after_upsert _ _ _ _ _ hl' with ⟨rfl, rfl⟩ | ⟨-, hl2⟩
      · rw [h] at hL
        cases hL
      · rw [h] at hl2
        injection hl2 with e
        subst e
        exact le_refl _
  | placeConfirmed c time =>
    cases hL : lookupA t.orders c with
    | none =>
      simp only [Tracker.step, Tracker.OrderPlaceConfirmed, hL,
        StepResult.state, Option.some.injEq] at hstep
      subst hstep
      rw [h] at hl'
      injection hl' with e
      subst e
      exact le_refl _
    | some cctx =>
      simp only [Tracker.step, Tracker.OrderPlaceConfirmed, hL] at hstep
      split at hstep <;>
      · simp only [StepResult.state, Option.some.injEq] at hstep
        subst hstep
        dsimp only at hl'
        rcases lookup_after_upsert _ _ _ _ _ hl' with ⟨rfl, rfl⟩ | ⟨-, hl2⟩
        · simp [ReportNone, ReportPlaced, ReportModified, ReportCanceled,
            ReportFilled, ReportRejected] at hkF'
        · rw [h] at hl2
          injection hl2 with e
          subst e
          exact le_refl _
  | rejected c time reason =>
    cases hL : lookupA t.orders c with
    | none =>
      simp only [Tracker.step, Tracker.OrderRejected, hL,
        StepResult.state, Option.some.injEq] at hstep
      subst hstep
      rw [h] at hl'
      injection hl' with e
      subst e
      exact le_refl _
    | some cctx =>
      simp only [Tracker.step, Tracker.OrderRejected, hL] at hstep
      split at hstep
      · simp only [StepResult.state, Option.some.injEq] at hstep
        subst hstep
        dsimp only at hl'
        rcases lookup_after_upsert _ _ _ _ _ hl' with ⟨rfl, rfl⟩ | ⟨-, hl2⟩
        · simp [ReportNone, ReportPlaced, ReportModified, ReportCanceled,
            ReportFilled, ReportRejected] at hkF'
        · rw [h] at hl2
          injection hl2 with e
          subst e
          exact le_refl _
      · split at hstep <;>
        · simp only [StepResult.state, Option.some.injEq] at hstep
          subst hstep
          dsimp only at hl'
          rcases lookup_after_upsert _ _ _ _ _ hl' with ⟨rfl, rfl⟩ | ⟨-, hl2⟩
          · simp [ReportNone, ReportPlaced, ReportModified, ReportCanceled,
            ReportFilled, ReportRejected] at hkF'
          · rw [h] at hl2
            injection hl2 with e
            subst e
            exact le_refl _
  | moving c =>
    cases hL : lookupA t.orders c with
    | none =>
      simp only [Tracker.step, Tracker.OrderMoving, hL,
        StepResult.state, Option.some.injEq] at hstep
      subst hstep
      rw [h] at hl'
      injection hl' with e
      subst e
      exact le_refl _
    | some cctx =>
      simp only [Tracker.step, Tracker.OrderMoving, hL] at hstep
      split at hstep
      · simp only [StepResult.state, Option.some.injEq] at hstep
        subst hstep
        rw [h] at hl'
        injection hl' with e
        subst e
        exact le_refl _
      · simp only [StepResult.state, Option.some.injEq] at hstep
        subst hstep
        dsimp only at hl'
        rcases lookup_after_upsert _ _ _ _ _ hl' with ⟨rfl, rfl⟩ | ⟨-, hl2⟩
        · simp [ReportNone, ReportPlaced, ReportModified, ReportCanceled,
            ReportFilled, ReportRejected] at hkF'
        · rw [h] at hl2
          injection hl2 with e
          subst e
          exact le_refl _
  | moveConfirmed c time price =>
    cases hL : lookupA t.orders c with
    | none =>
      simp only [Tracker.step, Tracker.OrderMoveConfirmed, hL,
        StepResult.state, Option.some.injEq] at hstep
      subst hstep
      rw [h] at hl'
      injection hl' with e
      subst e
      exact le_refl _
    | some cctx =>
      simp only [Tracker.step, Tracker.OrderMoveConfirmed, hL] at hstep
      split at hstep <;>
      · simp only [StepResult.state, Option.some.injEq] at hstep
        subst hstep
        dsimp only at hl'
        rcases lookup_after_upsert _ _ _ _ _ hl' with ⟨rfl, rfl⟩ | ⟨-, hl2⟩
        · simp [ReportNone, ReportPlaced, ReportModified, ReportCanceled,
            ReportFilled, ReportRejected] at hkF'
        · rw [h] at hl2
          injection hl2 with e
          subst e
          exact le_refl _
  | cancelling c =>
    cases hL : lookupA t.orders c with
    | none =>
      simp only [Tracker.step, Tracker.OrderCancelling, hL,
        StepResult.state, Option.some.injEq] at hstep
      subst hstep
      rw [h] at hl'
      injection hl' with e
      subst e
      exact le_refl _
    | some cctx =>
      simp only [Tracker.step, Tracker.OrderCancelling, hL] at hstep
      split at hstep
      · simp only [StepResult.state, Option.some.injEq] at hstep
        subst hstep
        rw [h] at hl'
        injection hl' with e
        subst e
        exact le_refl _
      · simp only [StepResult.state, Option.some.injEq] at hstep
        subst hstep
        dsimp only at hl'
        rcases lookup_after_upsert _ _ _ _ _ hl' with ⟨rfl, rfl⟩ | ⟨-, hl2⟩
        · simp [ReportNone, ReportPlaced, ReportModified, ReportCanceled,
            ReportFilled, ReportRejected] at hkF'
        · rw [h] at hl2
          injection hl2 with e
          subst e
          exact le_refl _
  | cancelConfirmed c time =>
    cases hL : lookupA t.orders c with
    | none =>
      simp only [Tracker.step, Tracker.OrderCancelConfirmed, hL,
        StepResult.state, Option.some.injEq] at hstep
      subst hstep
      rw [h] at hl'
      injection hl' with e
      subst e
      exact le_refl _
    | some cctx =>
      simp only [Tracker.step, Tracker.OrderCancelConfirmed, hL] at hstep
      split at hstep <;>
      · simp only [StepResult.state, Option.some.injEq] at hstep
        subst hstep
        dsimp only at hl'
        rcases lookup_after_upsert _ _ _ _ _ hl' with ⟨rfl, rfl⟩ | ⟨-, hl2⟩
        · simp [ReportNone, ReportPlaced, ReportModified, ReportCanceled,
            ReportFilled, ReportRejected] at hkF'
        · rw [h] at hl2
          injection hl2 with e
          subst e
          exact le_refl _
  | filled c time e p =>
    cases hL : lookupA t.orders c with
    | none =>
      simp only [Tracker.step, Tracker.OrderFilled, hL,
        StepResult.state, Option.some.injEq] at hstep
      subst hstep
      rw [h] at hl'
      injection hl' with e2
      subst e2
      exact le_refl _
    | some cctx =>
      simp only [Tracker.step, Tracker.OrderFilled, hL] at hstep
      split at hstep
      · split at hstep
        · simp [StepResult.state] at hstep
        · simp only [StepResult.state, Option.some.injEq] at hstep
          subst hstep
          dsimp only at hl'
          rcases lookup_after_upsert _ _ _ _ _ hl' with ⟨rfl, rfl⟩ | ⟨-, hl2⟩
          · rw [h] at hL
            injection hL with e2
            subst e2
            have hwlt := hw time e p rfl
            calc ctx.LastReport.Amount
                ≤ ctx.LastReport.Amount + e := Nat.le_add_right _ _
              _ = (ctx.LastReport.Amount + e) % U64MOD :=
                  (Nat.mod_eq_of_lt hwlt).symm
          · rw [h] at hl2
            injection hl2 with e2
            subst e2
            exact le_refl _
      · rename_i hcond
        simp only [StepResult.state, Option.some.injEq] at hstep
        subst hstep
        dsimp only at hl'
        rcases lookup_after_upsert _ _ _ _ _ hl' with ⟨rfl, rfl⟩ | ⟨-, hl2⟩
        · rw [h] at hL
          injection hL with e2
          subst e2
          exact absurd hkF (by simpa using hcond)
        · rw [h] at hl2
          injection hl2 with e2
          subst e2
          exact le_refl _
  | pushQuote eid sid bid ask =>
    simp only [Tracker.step, Tracker.PushQuote, StepResult.state,
      Option.some.injEq] at hstep
    subst hstep
    dsimp only at hl'
    rw [h] at hl'
    injection hl' with e
    subst e
    exact le_refl _

/-- C2 amended witness: on the concrete Filled order with cumulative amount
100 at price 10, the further fill of 300 at price 20 keeps the report kind
Filled and the cumulative amount grows from 100 to 400. -/
theorem amount_monotone_while_kind_filled_witness :
    ({ Status := OrderStatus.Filled, Order := sampleOrder,
       LastReport := { Kind := ReportFilled, Time := 1, Message := "",
                       Amount := 100, Price := 10 } } : OrderContext).LastReport.Amount ≤
    ({ Status := OrderStatus.Filled, Order := sampleOrder,
       LastReport := { Kind := ReportFilled, Time := 2, Message := "",
                       Amount := 400, Price := 17 } } : OrderContext).LastReport.Amount :=
  amount_monotone_while_kind_filled (filledTracker 100 10) "a"
    { Status := OrderStatus.Filled, Order := sampleOrder,
      LastReport := { Kind := ReportFilled, Time := 1, Message := "",
                      Amount := 100, Price := 10 } }
    { Status := OrderStatus.Filled, Order := sampleOrder,
      LastReport := { Kind := ReportFilled, Time := 2, Message := "",
                      Amount := 400, Price := 17 } }
    (.filled "a" 2 300 20)
    { exchanges := [(1, [("S", { bid := 0, ask := 0, orderContext := some "a" })])],
      orders := [("a", { Status := OrderStatus.Filled, Order := sampleOrder,
                         LastReport := { Kind := ReportFilled, Time := 2,
                                         Message := "", Amount := 400,
                                         Price := 17 } })] }
    rfl rfl rfl rfl rfl
    (by intro time e p hop
        injection hop with h1 h2 h3 h4
        subst h3
        decide)

end OrdersTracker
